import Mathlib

/-!
# ClearIce static-site generator: verification of the content-resolution pipeline

Shallow embedding of the ClearIce python package (`clearice/helpers.py`,
`clearice/app.py`, `clearice/views.py`, `clearice/generators.py`).

Python dictionaries are modeled as insertion-ordered association lists
(`List (String × _)`) with lookup returning the first binding; Python
exceptions are modeled with `Except` over an explicit exception type
`PyExc`; Python strings are Lean `String`s, and the character-level
operations of `normalize_url` are carried out on `List Char` (Python
strings are sequences of code points, so the translation is faithful).
-/

namespace ClearIce

/-- The exceptions raised (or accidentally propagated) by the code paths
modeled here.  `yamlErrorUncaught` stands for a `yaml.error.YAMLError`
escaping a function because nothing catches it. -/
inductive PyExc where
  | urlConflictError
  | configError (filename : Option String) (msg : String)
  | frontmatterError (filename : String) (msg : String)
  | yamlErrorUncaught
  | valueError (msg : String)
  | indexError
  | attributeError
  | runtimeError (msg : String)
deriving DecidableEq

/-- First-binding lookup in an association list, the model of Python
`d[k]` / `k in d` on an insertion-ordered `dict`. -/
def lookupKey {V : Type} (m : List (String × V)) (k : String) : Option V :=
  match m with
  | [] => none
  | (k2, v) :: rest => if k2 = k then some v else lookupKey rest k

@[simp] theorem lookupKey_nil {V : Type} (k : String) :
    lookupKey ([] : List (String × V)) k = none := rfl

theorem lookupKey_cons {V : Type} (k2 : String) (v : V) (rest : List (String × V)) (k : String) :
    lookupKey ((k2, v) :: rest) k = if k2 = k then some v else lookupKey rest k := rfl

theorem lookupKey_append {V : Type} (m1 m2 : List (String × V)) (k : String) :
    lookupKey (m1 ++ m2) k =
      match lookupKey m1 k with
      | some v => some v
      | none => lookupKey m2 k := by
  induction m1 with
  | nil => simp [lookupKey]
  | cons hd tl ih =>
    obtain ⟨k2, v⟩ := hd
    by_cases h : k2 = k <;> simp [lookupKey, h, ih]

/-- Model of `App.add_url` (app.py lines 149-154): raise `UrlConflictError` when the
url is already a key of `self.url_map`, otherwise bind it.  The `raise`
happens before the assignment, so on error the map is untouched; in this
functional embedding the error branch simply produces no new map.  The
check lives in `add_url` itself, which is called by generators during the
resolution phase (`generate_urls`), not during `build_content`. -/
def add_url {V : Type} (url_map : List (String × V)) (url : String) (view : V) :
    Except PyExc (List (String × V)) :=
  if (lookupKey url_map url).isSome then .error .urlConflictError
  else .ok (url_map ++ [(url, view)])

/-! ## helpers.py: `remove_extension`, `remove_prefix`, `normalize_url` -/

/-- The index of the last occurrence of `c`, the model of Python
`s.rfind(c)` restricted to the found case (`none` models the `-1`). -/
def lastIdxOf (c : Char) : List Char → Option Nat
  | [] => none
  | a :: rest =>
    match lastIdxOf c rest with
    | some i => some (i + 1)
    | none => if a = c then some 0 else none

/-- Model of `helpers.remove_extension` (helpers.py line 11):
`filename[:filename.rfind(divider)]` with the default divider.  Note that
when no `.` occurs, Python `rfind` returns `-1` and the slice `[:-1]`
drops the final character. -/
def remove_extension (filename : String) : String :=
  match lastIdxOf '.' filename.data with
  | some i => String.mk (filename.data.take i)
  | none => String.mk filename.data.dropLast

/-- One pass of Python `url.replace("//", "/")`: scan left to right,
replacing non-overlapping occurrences. -/
def repDS : List Char → List Char
  | [] => []
  | [c] => [c]
  | a :: b :: rest =>
    if a = '/' ∧ b = '/' then '/' :: repDS rest
    else a :: repDS (b :: rest)

/-- Whether `"//" in url` holds. -/
def hasDS : List Char → Bool
  | [] => false
  | [_] => false
  | a :: b :: rest => (a = '/' && b = '/') || hasDS (b :: rest)

theorem repDS_length_le (l : List Char) : (repDS l).length ≤ l.length := by
  induction l using repDS.induct with
  | case1 => simp [repDS]
  | case2 c => simp [repDS]
  | case3 a b rest hab ih =>
    simp only [repDS, if_pos hab, List.length_cons]
    omega
  | case4 a b rest hab ih =>
    simp only [repDS, if_neg hab, List.length_cons]
    simpa using ih

theorem repDS_length_lt (l : List Char) (h : hasDS l = true) :
    (repDS l).length < l.length := by
  induction l using repDS.induct with
  | case1 => simp [hasDS] at h
  | case2 c => simp [hasDS] at h
  | case3 a b rest hab ih =>
    have := repDS_length_le rest
    simp only [repDS, if_pos hab, List.length_cons]
    omega
  | case4 a b rest hab ih =>
    simp only [hasDS, Bool.or_eq_true, Bool.and_eq_true, decide_eq_true_eq] at h
    rcases h with ⟨h1, h2⟩ | h2
    · exact absurd ⟨h1, h2⟩ hab
    · have := ih h2
      simp only [List.length_cons] at this
      simp only [repDS, if_neg hab, List.length_cons]
      omega

/-- The loop `while '//' in url: url = url.replace('//', '/')`
(helpers.py lines 47-48), with an explicit iteration budget.  Each pass
that fires strictly shortens the string (`repDS_length_lt`), so a budget
of the string's length always reaches the loop's fixed point; the budget
makes the definition structurally recursive and kernel-evaluable. -/
def collapseFuel : Nat → List Char → List Char
  | 0, l => l
  | fuel + 1, l => if hasDS l then collapseFuel fuel (repDS l) else l

/-- The `while` loop of helpers.py lines 47-48 run to its fixed point. -/
def collapseDS (l : List Char) : List Char := collapseFuel l.length l

/-- Model of `if url.startswith("./"): url = url[1:]` (helpers.py lines 30-31). -/
def stripDotSlash (l : List Char) : List Char :=
  if ['.', '/'] <+: l then l.drop 1 else l

/-- Model of `if url.endswith("/index"): url = url[:-5]` (helpers.py lines 36-37). -/
def stripIndex (l : List Char) : List Char :=
  if ['/', 'i', 'n', 'd', 'e', 'x'] <:+ l then l.take (l.length - 5) else l

/-- Model of `if not url.startswith("/"): url = '/' + url` (helpers.py lines 41-42). -/
def ensureLead (l : List Char) : List Char :=
  if l.head? = some '/' then l else '/' :: l

/-- Model of `if not url.endswith("/"): url = url + '/'` (helpers.py lines 43-44). -/
def ensureTrail (l : List Char) : List Char :=
  if l.getLast? = some '/' then l else l ++ ['/']

/-- Model of `helpers.normalize_url` (helpers.py lines 22-51), step by step on the
code points of the path. -/
def normChars (l : List Char) : List Char :=
  collapseDS (ensureTrail (ensureLead (stripIndex (stripDotSlash l))))

/-- Model of `helpers.normalize_url` on Lean strings. -/
def normalize_url (s : String) : String := String.mk (normChars s.data)

/-! Facts about the double-slash collapsing loop. -/

theorem repDS_head? (l : List Char) : (repDS l).head? = l.head? := by
  induction l using repDS.induct with
  | case1 => rfl
  | case2 c => rfl
  | case3 a b rest hab ih =>
    rcases hab with ⟨ha, hb⟩
    subst ha; subst hb
    simp [repDS]
  | case4 a b rest hab ih => simp [repDS, if_neg hab]

theorem repDS_ne_nil {l : List Char} (h : l ≠ []) : repDS l ≠ [] := by
  cases l with
  | nil => exact absurd rfl h
  | cons a t =>
    cases t with
    | nil => simp [repDS]
    | cons b rest =>
      rw [repDS]
      split <;> simp

theorem getLast?_cons_of_ne_nil {α : Type} (a : α) {l : List α} (h : l ≠ []) :
    (a :: l).getLast? = l.getLast? := by
  cases l with
  | nil => exact absurd rfl h
  | cons b t => simp

theorem repDS_getLast? (l : List Char) : (repDS l).getLast? = l.getLast? := by
  induction l using repDS.induct with
  | case1 => rfl
  | case2 c => rfl
  | case3 a b rest hab ih =>
    rcases hab with ⟨ha, hb⟩
    subst ha; subst hb
    rw [repDS, if_pos ⟨rfl, rfl⟩]
    cases hr : rest with
    | nil => subst hr; simp [repDS]
    | cons c t =>
      subst hr
      rw [getLast?_cons_of_ne_nil _ (repDS_ne_nil (by simp)), ih]
      simp
  | case4 a b rest hab ih =>
    rw [repDS, if_neg hab]
    rw [getLast?_cons_of_ne_nil _ (repDS_ne_nil (by simp)), ih,
      List.getLast?_cons_cons]

theorem collapseFuel_head? (fuel : Nat) (l : List Char) :
    (collapseFuel fuel l).head? = l.head? := by
  induction fuel generalizing l with
  | zero => rfl
  | succ n ih =>
    rw [collapseFuel]
    split
    · rw [ih, repDS_head?]
    · rfl

theorem collapseFuel_getLast? (fuel : Nat) (l : List Char) :
    (collapseFuel fuel l).getLast? = l.getLast? := by
  induction fuel generalizing l with
  | zero => rfl
  | succ n ih =>
    rw [collapseFuel]
    split
    · rw [ih, repDS_getLast?]
    · rfl

theorem collapseFuel_hasDS (fuel : Nat) (l : List Char) (h : l.length ≤ fuel) :
    hasDS (collapseFuel fuel l) = false := by
  induction fuel generalizing l with
  | zero =>
    have hl : l = [] := List.eq_nil_of_length_eq_zero (Nat.le_zero.mp h)
    subst hl
    rfl
  | succ n ih =>
    rw [collapseFuel]
    split
    · rename_i hds
      exact ih (repDS l) (by have := repDS_length_lt l hds; omega)
    · rename_i hds
      simpa using hds

theorem collapseDS_hasDS (l : List Char) : hasDS (collapseDS l) = false :=
  collapseFuel_hasDS l.length l le_rfl

theorem collapseFuel_of_hasDS_false (fuel : Nat) {l : List Char}
    (h : hasDS l = false) : collapseFuel fuel l = l := by
  cases fuel with
  | zero => rfl
  | succ n => rw [collapseFuel, if_neg (by simp [h])]

/-! Facts about the other normalization steps. -/

theorem ensureLead_head? (l : List Char) : (ensureLead l).head? = some '/' := by
  rw [ensureLead]
  split
  · assumption
  · rfl

theorem ensureTrail_getLast? (l : List Char) :
    (ensureTrail l).getLast? = some '/' := by
  rw [ensureTrail]
  split
  · assumption
  · simp

theorem ensureTrail_head?_slash {l : List Char} (h : l.head? = some '/') :
    (ensureTrail l).head? = some '/' := by
  rw [ensureTrail]
  split
  · exact h
  · simp [h]

theorem normChars_head? (l : List Char) : (normChars l).head? = some '/' := by
  rw [normChars, collapseDS, collapseFuel_head?]
  exact ensureTrail_head?_slash (ensureLead_head? _)

theorem normChars_getLast? (l : List Char) : (normChars l).getLast? = some '/' := by
  rw [normChars, collapseDS, collapseFuel_getLast?]
  exact ensureTrail_getLast? _

theorem normChars_hasDS (l : List Char) : hasDS (normChars l) = false :=
  collapseDS_hasDS _

/-- A string that already starts and ends with `/` and has no double
slash passes through `normalize_url` unchanged. -/
theorem normChars_fixed {l : List Char} (h1 : l.head? = some '/')
    (h2 : l.getLast? = some '/') (h3 : hasDS l = false) : normChars l = l := by
  have hdot : ¬ (['.', '/'] <+: l) := by
    rintro ⟨t, ht⟩
    rw [← ht] at h1
    simp at h1
  have hidx : ¬ (['/', 'i', 'n', 'd', 'e', 'x'] <:+ l) := by
    rintro ⟨t, ht⟩
    rw [← ht] at h2
    simp at h2
  rw [normChars, stripDotSlash, if_neg hdot, stripIndex, if_neg hidx,
    ensureLead, if_pos h1, ensureTrail, if_pos h2, collapseDS,
    collapseFuel_of_hasDS_false _ h3]

/-- C8: `normalize_url` is idempotent: applying it twice gives the same
result as applying it once, for every input string. -/
theorem normalize_url_idempotent (s : String) :
    normalize_url (normalize_url s) = normalize_url s := by
  show String.mk (normChars (normChars s.data)) = String.mk (normChars s.data)
  exact congrArg String.mk
    (normChars_fixed (normChars_head? _) (normChars_getLast? _) (normChars_hasDS _))

/-! ## C1: conflict checking in `App.add_url` -/

/-- C1: for every url map, `add_url` raises `UrlConflictError` exactly when
the url is already a key of the map; on that error no updated map is
produced (the `raise` precedes the assignment, so the map is unchanged),
and otherwise the resulting map is the prior map extended with exactly the
one new binding, every other key's lookup being untouched.  The check sits
in `add_url` itself, which generators call during the resolution phase. -/
theorem add_url_spec {V : Type} (m : List (String × V)) (u : String) (v : V) :
    (add_url m u v = .error .urlConflictError ↔ (lookupKey m u).isSome = true)
    ∧ ((lookupKey m u).isSome = false →
        add_url m u v = .ok (m ++ [(u, v)])
        ∧ lookupKey (m ++ [(u, v)]) u = some v
        ∧ ∀ k, k ≠ u → lookupKey (m ++ [(u, v)]) k = lookupKey m k) := by
  have hnone : (lookupKey m u).isSome = false → lookupKey m u = none := by
    cases lookupKey m u <;> simp
  refine ⟨⟨fun h => ?_, fun h => by simp only [add_url, if_pos h]⟩, fun h => ?_⟩
  · by_contra hc
    simp only [add_url] at h
    rw [if_neg (by simp [Bool.not_eq_true] at hc ⊢; exact hc)] at h
    exact Except.noConfusion h
  · refine ⟨by simp only [add_url]; rw [if_neg (by simp [h])], ?_, fun k hk => ?_⟩
    · rw [lookupKey_append, hnone h]
      simp [lookupKey_cons]
    · rw [lookupKey_append]
      cases hmk : lookupKey m k with
      | some w => rfl
      | none =>
        rw [lookupKey_cons, if_neg (Ne.symm hk)]
        rfl

theorem add_url_spec_witness :
    add_url [("/a/", 0)] "/b/" 1 = .ok [("/a/", 0), ("/b/", 1)]
    ∧ add_url [("/a/", 0)] "/a/" 1 = .error .urlConflictError :=
  ⟨((add_url_spec [("/a/", 0)] "/b/" 1).2 (by decide)).1,
   (add_url_spec [("/a/", 0)] "/a/" 1).1.mpr (by decide)⟩

/-! ## C5: `Collection.file_is_item` -/

/-- Model of `Collection.file_is_item` (generators.py lines 111-120): strip the
extension, normalize to a URL, drop the trailing `/`, and compare the part
up to and including the last `/` with the collection's url.  `url.rindex`
raises an uncaught `ValueError` when no `/` remains. -/
def file_is_item (collUrl : String) (relpath : String) : Except PyExc Bool :=
  let url := normalize_url (remove_extension relpath)
  let url2 := String.mk (url.data.dropLast)
  match lastIdxOf '/' url2.data with
  | none => .error (.valueError "substring not found")
  | some i => .ok (decide (String.mk (url2.data.take (i + 1)) = collUrl))

/-- Modelled from the spec: "removing the last path segment" of a URL —
drop the trailing slash, then keep everything up to and including the last
remaining `/`; undefined when no `/` remains. -/
def removeLastSegment (url : String) : Option String :=
  let u := String.mk (url.data.dropLast)
  (lastIdxOf '/' u.data).map (fun i => String.mk (u.data.take (i + 1)))

/-- C5: a walked file is an item of a collection with base url `P` exactly
when removing the final path segment of
`normalize_url (remove_extension relpath)` yields `P`; consequently direct
children and one-level-deeper `index` files are items, while
deeper-nested non-index files are not. -/
theorem file_is_item_spec (collUrl relpath : String) :
    (file_is_item collUrl relpath = .ok true ↔
      removeLastSegment (normalize_url (remove_extension relpath)) = some collUrl)
    ∧ file_is_item "/blog/" "/blog/foo.md" = .ok true
    ∧ file_is_item "/blog/" "/blog/bar/index.md" = .ok true
    ∧ file_is_item "/blog/" "/blog/sub/deeper.md" = .ok false := by
  refine ⟨?_, by rfl, by rfl, by rfl⟩
  rw [file_is_item, removeLastSegment]
  cases hm : lastIdxOf '/' ((normalize_url (remove_extension relpath)).data.dropLast) with
  | none => simp [hm]
  | some i => simp [hm]

/-! ## Python/YAML values and dict operations -/

/-- Python values as relevant to the modeled code paths: YAML scalars,
sequences and mappings, plus the handful of live objects that get put
into rendering contexts (the view itself, the app, the collections
registry, a collection, and the self-referential `context` entry). -/
inductive Val where
  | vNone
  | vBool (b : Bool)
  | vInt (n : Int)
  | vStr (s : String)
  | vList (l : List Val)
  | vDict (m : List (String × Val))
  | vDate (y : Nat) (mo : Nat) (d : Nat)
  | vSelfRef
  | vAppRef
  | vCollectionsRef
  | vCollectionRef (name : String)
  | vContextRef

mutual

/-- Python `==` on the modeled values (structural equality). -/
def valBEq : Val → Val → Bool
  | .vNone, .vNone => true
  | .vBool a, .vBool b => a == b
  | .vInt a, .vInt b => a == b
  | .vStr a, .vStr b => a == b
  | .vDate y1 m1 d1, .vDate y2 m2 d2 => y1 == y2 && m1 == m2 && d1 == d2
  | .vList a, .vList b => valListBEq a b
  | .vDict a, .vDict b => valDictBEq a b
  | .vSelfRef, .vSelfRef => true
  | .vAppRef, .vAppRef => true
  | .vCollectionsRef, .vCollectionsRef => true
  | .vCollectionRef a, .vCollectionRef b => a == b
  | .vContextRef, .vContextRef => true
  | _, _ => false

def valListBEq : List Val → List Val → Bool
  | [], [] => true
  | a :: as, b :: bs => valBEq a b && valListBEq as bs
  | _, _ => false

def valDictBEq : List (String × Val) → List (String × Val) → Bool
  | [], [] => true
  | (k1, v1) :: as, (k2, v2) :: bs => k1 == k2 && valBEq v1 v2 && valDictBEq as bs
  | _, _ => false

end

/-- Python truthiness for `Val`; note `Collection.__bool__` (generators.py
lines 75-77) makes every collection truthy. -/
def pyTruthy : Val → Bool
  | .vNone => false
  | .vBool b => b
  | .vInt n => decide (n ≠ 0)
  | .vStr s => decide (s ≠ "")
  | .vList l => !l.isEmpty
  | .vDict m => !m.isEmpty
  | .vDate _ _ _ => true
  | .vSelfRef => true
  | .vAppRef => true
  | .vCollectionsRef => true
  | .vCollectionRef _ => true
  | .vContextRef => true

/-- Python `d.pop(k, default)`: the removed value (or `none`) and the
remaining dict. -/
def popKey (m : List (String × Val)) (k : String) : Option Val × List (String × Val) :=
  match m with
  | [] => (none, [])
  | (k2, v) :: rest =>
    if k2 = k then (some v, rest)
    else
      let r := popKey rest k
      (r.1, (k2, v) :: r.2)

/-- Python `d[k] = v` on an insertion-ordered dict: overwrite in place,
else append. -/
def dictSet (m : List (String × Val)) (k : String) (v : Val) : List (String × Val) :=
  match m with
  | [] => [(k, v)]
  | (k2, v2) :: rest => if k2 = k then (k2, v) :: rest else (k2, v2) :: dictSet rest k v

/-- Python `d.update(other)`: set every binding of `other` in order. -/
def dictUpdate (m : List (String × Val)) (other : List (String × Val)) :
    List (String × Val) :=
  other.foldl (fun acc kv => dictSet acc kv.1 kv.2) m

theorem lookupKey_dictSet_self (m : List (String × Val)) (k : String) (v : Val) :
    lookupKey (dictSet m k v) k = some v := by
  induction m with
  | nil => simp [dictSet, lookupKey]
  | cons hd tl ih =>
    obtain ⟨k2, v2⟩ := hd
    by_cases h : k2 = k <;> simp [dictSet, lookupKey, h, ih]

theorem lookupKey_dictSet_other (m : List (String × Val)) (k k2 : String) (v : Val)
    (h : k2 ≠ k) : lookupKey (dictSet m k v) k2 = lookupKey m k2 := by
  induction m with
  | nil =>
    show lookupKey [(k, v)] k2 = lookupKey [] k2
    rw [lookupKey_cons, if_neg (Ne.symm h)]
  | cons hd tl ih =>
    obtain ⟨k3, v3⟩ := hd
    by_cases h3 : k3 = k
    · subst h3
      simp [dictSet, lookupKey, Ne.symm h]
    · simp [dictSet, lookupKey, h3, ih]

theorem lookupKey_dictSet_isSome (m : List (String × Val)) (k k2 : String) (v : Val)
    (h : (lookupKey m k2).isSome = true) :
    (lookupKey (dictSet m k v) k2).isSome = true := by
  by_cases hk : k2 = k
  · subst hk
    rw [lookupKey_dictSet_self]
    rfl
  · rwa [lookupKey_dictSet_other _ _ _ _ hk]

theorem lookupKey_dictUpdate_isSome (other m : List (String × Val)) (k : String)
    (h : (lookupKey m k).isSome = true) :
    (lookupKey (dictUpdate m other) k).isSome = true := by
  induction other generalizing m with
  | nil => exact h
  | cons hd tl ih => exact ih _ (lookupKey_dictSet_isSome _ _ _ _ h)

theorem lookupKey_dictUpdate_of_absent (other m : List (String × Val)) (k : String)
    (h : lookupKey other k = none) :
    lookupKey (dictUpdate m other) k = lookupKey m k := by
  induction other generalizing m with
  | nil => rfl
  | cons hd tl ih =>
    obtain ⟨k2, v2⟩ := hd
    rw [lookupKey_cons] at h
    by_cases hk : k2 = k
    · simp [hk] at h
    · rw [if_neg hk] at h
      show lookupKey (dictUpdate (dictSet m k2 v2) tl) k = _
      rw [ih _ h, lookupKey_dictSet_other _ _ _ _ (Ne.symm hk)]

/-! ## C9: default collection name and the duplicate-name check -/

/-- generators.py line 149: `self.name = data.pop("name", "") or ""` — a
missing or false-y `name` becomes the empty string. -/
def collection_name (data : List (String × Val)) : Val :=
  let popped := ((popKey data "name").1).getD (.vStr "")
  if pyTruthy popped then popped else .vStr ""

/-- A registered generator: `name` is `some` when the object has a `name`
attribute (`hasattr`), as every `Collection` does. -/
structure Gen where
  name : Option Val

/-- Model of `App.add_generator` (app.py lines 167-176): reject a generator whose
`name` equals an already-registered generator's `name`; registration
happens before `generate_urls` runs any generator. -/
def add_generator (gens : List Gen) (gen : Gen) : Except PyExc (List Gen) :=
  let dup :=
    match gen.name with
    | some n =>
      gens.any (fun g2 =>
        match g2.name with
        | some n2 => valBEq n n2
        | none => false)
    | none => false
  if dup then
    .error (.configError none "Cannot have two generators with the same name")
  else .ok (gens ++ [gen])

/-- C9: two collection descriptors that both omit `name` (or give it a
false-y value) both get the default name `""`, and registering the second
collection raises `ConfigError` for the duplicate name `""` already at
`add_generator` time, before resolution runs. -/
theorem collection_default_name_spec (d1 d2 : List (String × Val))
    (h1 : ∀ v, (popKey d1 "name").1 = some v → pyTruthy v = false)
    (h2 : ∀ v, (popKey d2 "name").1 = some v → pyTruthy v = false) :
    collection_name d1 = .vStr ""
    ∧ collection_name d2 = .vStr ""
    ∧ add_generator [⟨some (collection_name d1)⟩] ⟨some (collection_name d2)⟩
        = .error (.configError none "Cannot have two generators with the same name") := by
  have key : ∀ d, (∀ v, (popKey d "name").1 = some v → pyTruthy v = false) →
      collection_name d = .vStr "" := by
    intro d h
    rw [collection_name]
    cases hp : (popKey d "name").1 with
    | none => simp
    | some v => simp [h v hp]
  refine ⟨key d1 h1, key d2 h2, ?_⟩
  rw [key d1 h1, key d2 h2]
  simp [add_generator, valBEq]

theorem collection_default_name_spec_witness :
    collection_name [] = .vStr ""
    ∧ collection_name [("name", .vNone)] = .vStr ""
    ∧ add_generator [⟨some (collection_name [])⟩]
        ⟨some (collection_name [("name", .vNone)])⟩
        = .error (.configError none "Cannot have two generators with the same name") :=
  collection_default_name_spec [] [("name", .vNone)]
    (by intro v hv; cases hv) (by intro v hv; cases hv; rfl)

/-! ## views.py: `read_frontmatter_file` (C3, C4) -/

/-- The outcome of the external `yaml.load` call (PyYAML is out of scope;
the parser is passed in as a function of the yaml text).  `yamlError`
models a `yaml.error.YAMLError` (syntax error), which is not a
`ValueError`; `valueError` models a `ValueError` escaping from a
constructor inside `yaml.load` (e.g. an out-of-range date). -/
inductive YamlOutcome where
  | ok (v : Val)
  | yamlError
  | valueError (msg : String)

/-- Helper for Python `lst.index(x)`: index of the first occurrence. -/
def idxOfAux (marker : String) : List String → Option Nat
  | [] => none
  | l :: rest => if l = marker then some 0 else (idxOfAux marker rest).map (· + 1)

/-- Python `lst.index(x, start)` restricted to the found case (`none`
models the raised `ValueError`). -/
def idxOfFrom (lines : List String) (marker : String) (start : Nat) : Option Nat :=
  (idxOfAux marker (lines.drop start)).map (· + start)

/-- Python whitespace, as stripped by `str.strip()`. -/
def isPySpace (c : Char) : Bool :=
  c = ' ' || c = '\t' || c = '\n' || c = '\r' || c = '\x0b' || c = '\x0c'

/-- Model of `views.read_frontmatter_file` (views.py lines 42-81), operating on the
file's lines (`list(f)`: each line keeps its trailing newline; a final
line without a trailing newline appears without one).  The YAML parser is
the out-of-scope collaborator `yload`.  The source's `except ValueError`
around `yaml.load` does not match a `yaml.error.YAMLError`, so that error
propagates uncaught (`.yamlErrorUncaught`). -/
def read_frontmatter_file (yload : String → YamlOutcome) (filename : String)
    (lines : List String) : Except PyExc (List (String × Val) × String) :=
  let marker := "---\n"
  -- try: fm_start = lines.index(marker); fm_end = lines.index(marker, fm_start+1)
  -- except ValueError: allow the last line to contain the marker minus newline,
  --   but only when fm_start was found.
  let fmRange? : Option (Nat × Nat) :=
    match idxOfFrom lines marker 0 with
    | none => none
    | some i =>
      match idxOfFrom lines marker (i + 1) with
      | some j => some (i, j)
      | none =>
        if lines.getLast? = some "---" then some (i, lines.length - 1) else none
  match fmRange? with
  | none =>
    .error (.frontmatterError filename
      "Missing opening and closing frontmatter delimiter lines.")
  | some (i, j) =>
    -- if ''.join(lines[:fm_start]).strip(): error — the stripped string is
    -- truthy exactly when some non-whitespace character precedes the marker
    if (String.join (lines.take i)).data.any (fun c => !(isPySpace c)) then
      .error (.frontmatterError filename
        "Frontmatter marker may only be preceeded by blank lines.")
    else
      -- yaml_lines = lines[fm_start+1:fm_end]
      let yaml_lines := (lines.take j).drop (i + 1)
      match yload (String.join yaml_lines) with
      | .yamlError => .error .yamlErrorUncaught
      | .valueError msg => .error (.frontmatterError filename msg)
      | .ok v =>
        -- if fm is None: fm = {} ; if type(fm) != dict: error
        match v with
        | .vNone => .ok ([], String.join (lines.drop (j + 1)))
        | .vDict m => .ok (m, String.join (lines.drop (j + 1)))
        | _ => .error (.frontmatterError filename "Frontmatter must be a YAML mapping")

/-- The external PyYAML parser evaluated at the repository's own test
fixture: `"foo: bar\n- baz"` raises `yaml.parser.ParserError` (a
`yaml.error.YAMLError`), exactly as asserted by
`tests/test_app.py::test_frontmatter_parse_errors`. -/
def yloadFixture : String → YamlOutcome := fun s =>
  if s = "foo: bar\n- baz\n" then .yamlError else .ok .vNone

/-- C3 (code bug): on a file whose frontmatter region is well-delimited
but not valid YAML, `read_frontmatter_file` does NOT raise
`FrontmatterError` — the `except ValueError` clause never matches the
parser's `yaml.error.YAMLError`, which therefore propagates uncaught,
contradicting both the claim and the repository's own test
`test_frontmatter_parse_errors`. -/
theorem read_frontmatter_yaml_error_uncaught :
    read_frontmatter_file yloadFixture "index.md"
      ["---\n", "foo: bar\n", "- baz\n", "---\n"]
      = .error .yamlErrorUncaught := by
  rfl

theorem idxOfAux_append_not_mem {marker : String} {pre : List String}
    (h : marker ∉ pre) (rest : List String) :
    idxOfAux marker (pre ++ rest) = (idxOfAux marker rest).map (· + pre.length) := by
  induction pre with
  | nil =>
    cases h2 : idxOfAux marker rest <;> simp [h2]
  | cons a t ih =>
    simp only [List.mem_cons, not_or] at h
    rw [List.cons_append, idxOfAux, if_neg (Ne.symm h.1), ih h.2]
    cases h2 : idxOfAux marker rest
    · simp [h2]
    · simp [h2]
      omega

/-- C4: round-trip of a well-formed frontmatter file: opening delimiter
line, a YAML block (with no stray delimiter line) that parses to the
mapping `M`, closing delimiter line, body lines `bs`; the parse returns
exactly `M` and the body verbatim (the concatenation of the lines after
the closing delimiter, leading newline included). -/
theorem read_frontmatter_roundtrip (yload : String → YamlOutcome)
    (filename : String) (ys bs : List String) (M : List (String × Val))
    (hys : "---\n" ∉ ys)
    (hy : yload (String.join ys) = .ok (.vDict M)) :
    read_frontmatter_file yload filename (["---\n"] ++ ys ++ ["---\n"] ++ bs)
      = .ok (M, String.join bs) := by
  have hidx0 : idxOfFrom (["---\n"] ++ ys ++ ["---\n"] ++ bs) "---\n" 0 = some 0 := by
    simp [idxOfFrom, idxOfAux]
  have hidx1 : idxOfFrom (["---\n"] ++ ys ++ ["---\n"] ++ bs) "---\n" 1
      = some (ys.length + 1) := by
    have : (["---\n"] ++ ys ++ ["---\n"] ++ bs).drop 1 = ys ++ ("---\n" :: bs) := by
      simp
    rw [idxOfFrom, this, idxOfAux_append_not_mem hys]
    simp [idxOfAux]
  have htake : ((["---\n"] ++ ys ++ ["---\n"] ++ bs).take (ys.length + 1)).drop 1
      = ys := by
    have : ["---\n"] ++ ys ++ ["---\n"] ++ bs = ("---\n" :: ys) ++ ("---\n" :: bs) := by
      simp
    rw [this]
    have hlen : ys.length + 1 = ("---\n" :: ys).length := by simp
    rw [hlen, List.take_left]
    rfl
  have hdrop : (["---\n"] ++ ys ++ ["---\n"] ++ bs).drop (ys.length + 1 + 1) = bs := by
    have : ["---\n"] ++ ys ++ ["---\n"] ++ bs = ("---\n" :: ys ++ ["---\n"]) ++ bs := by
      simp
    rw [this]
    have hlen : ys.length + 1 + 1 = ("---\n" :: ys ++ ["---\n"]).length := by simp
    rw [hlen, List.drop_left]
  rw [read_frontmatter_file]
  simp only [hidx0, hidx1, htake, List.take_zero]
  rw [if_neg (by decide)]
  simp only [htake, hy, hdrop]

theorem read_frontmatter_roundtrip_witness :
    read_frontmatter_file
      (fun s => if s = "a: b\n" then .ok (.vDict [("a", .vStr "b")]) else .ok .vNone)
      "post.md" (["---\n"] ++ ["a: b\n"] ++ ["---\n"] ++ ["\n", "body"])
      = .ok ([("a", .vStr "b")], String.join ["\n", "body"]) :=
  read_frontmatter_roundtrip _ "post.md" ["a: b\n"] ["\n", "body"]
    [("a", .vStr "b")] (by simp) (by rfl)

/-! ## views.py: context assembly (C2) -/

/-- views.py line 12. -/
def DEFAULT_TEMPLATE : String := "default.html"

/-- Days per month as validated by the external `datetime` library. -/
def daysInMonth (y mo : Nat) : Nat :=
  if mo = 2 then
    if (y % 4 = 0 && y % 100 ≠ 0) || y % 400 = 0 then 29 else 28
  else if mo = 4 || mo = 6 || mo = 9 || mo = 11 then 30
  else 31

/-- The external `datetime.strptime(s, "%Y-%m-%d").date()` call of
`str_to_date` (views.py line 34), modeled on its documented
`YYYY-MM-DD` filename convention: a 4-digit year, 2-digit month and
2-digit day forming a valid calendar date. -/
def strptimeYmd (s : String) : Option (Nat × Nat × Nat) :=
  match s.data with
  | [a, b, c, d, s1, e, f, s2, g, h] =>
    if a.isDigit && b.isDigit && c.isDigit && d.isDigit && s1 = '-' &&
        e.isDigit && f.isDigit && s2 = '-' && g.isDigit && h.isDigit then
      let y := 1000 * (a.toNat - 48) + 100 * (b.toNat - 48) + 10 * (c.toNat - 48)
        + (d.toNat - 48)
      let mo := 10 * (e.toNat - 48) + (f.toNat - 48)
      let day := 10 * (g.toNat - 48) + (h.toNat - 48)
      if 1 ≤ y && 1 ≤ mo && mo ≤ 12 && 1 ≤ day && day ≤ daysInMonth y mo then
        some (y, mo, day)
      else none
    else none
  | _ => none

/-- Model of `views.str_to_date` (views.py lines 30-40): try to parse the first 10
characters as a date; on success the leftover is the rest of the string. -/
def str_to_date (s : String) : Option (Nat × Nat × Nat) × String :=
  match strptimeYmd (String.mk (s.data.take 10)) with
  | some d => (some d, String.mk (s.data.drop 10))
  | none => (none, s)

/-- Model of `views.extract_info_from_filename` (views.py lines 14-28).  Note that
when a date parses and the leftover is empty, `fname[0]` raises an
uncaught `IndexError`. -/
def extract_info_from_filename (fname : String) :
    Except PyExc (List (String × Val)) :=
  match str_to_date (remove_extension fname) with
  | (some (y, mo, d), leftover) =>
    match leftover.data with
    | [] => .error .indexError
    | c :: rest =>
      let fname2 := if c = '_' then String.mk rest else String.mk (c :: rest)
      .ok [("date", .vDate y mo d), ("slug", .vStr fname2)]
  | (none, leftover) => .ok [("slug", .vStr leftover)]

/-- The data of an owning `Collection` visible to context assembly: its
name and its declared `context` mapping. -/
structure CollInfo where
  name : String
  context : List (String × Val)

/-- The context value of the `url` attribute (`None` before the deferred
assignment). -/
def optUrlVal : Option String → Val
  | some u => .vStr u
  | none => .vNone

/-- Model of `TemplateView.get_context` (views.py lines 106-131): built-ins, the
`context` metavariable, the owning collection's declared context, the
caller-supplied context, then an explicitly passed template name. -/
def template_view_context (url template : Option String)
    (collection : Option CollInfo)
    (default_context : Option (List (String × Val))) : List (String × Val) :=
  let context : List (String × Val) :=
    [("self", .vSelfRef), ("url", optUrlVal url), ("app", .vAppRef),
     ("collections", .vCollectionsRef),
     ("collection", match collection with
       | some c => .vCollectionRef c.name
       | none => .vNone),
     ("template", .vStr DEFAULT_TEMPLATE)]
  let context := dictSet context "context" .vContextRef
  let context :=
    match collection with
    | some c => dictUpdate context c.context
    | none => context
  let context :=
    match default_context with
    | some dc => if dc.isEmpty then context else dictUpdate context dc
    | none => context
  match template with
  | some t => if t = "" then context else dictSet context "template" (.vStr t)
  | none => context

/-- Model of `MarkdownView.get_context` (views.py lines 160-172): the template-view
context, then `content`, `frontmatter`, the filename-derived info, and
finally the front matter overriding everything. -/
def markdown_view_context (frontmatter : List (String × Val)) (content : String)
    (basename : String) (url template : Option String)
    (collection : Option CollInfo)
    (default_context : Option (List (String × Val))) :
    Except PyExc (List (String × Val)) :=
  let context := template_view_context url template collection default_context
  let context := dictSet context "content" (.vStr content)
  let context := dictSet context "frontmatter" (.vDict frontmatter)
  match extract_info_from_filename basename with
  | .error e => .error e
  | .ok info => .ok (dictUpdate (dictUpdate context info) frontmatter)

/-- Model of `TemplateView.set_url` (views.py lines 102-104): the set-once deferred
URL assignment, updating the context's `url` entry. -/
def set_url (context : List (String × Val)) (url : String) : List (String × Val) :=
  dictSet context "url" (.vStr url)

theorem extract_info_no_url (fname : String) (r : List (String × Val))
    (h : extract_info_from_filename fname = .ok r) :
    lookupKey r "url" = none := by
  rw [extract_info_from_filename] at h
  split at h
  · split at h
    · cases h
    · rw [Except.ok.injEq] at h
      rw [← h]
      rfl
  · rw [Except.ok.injEq] at h
    rw [← h]
    rfl

/-- C2 (amended): the assembled render context always contains a
`template` key; the `url` entry equals the View's url provided none of
the owning collection's declared context, the caller-supplied context,
and the front matter supplies its own `url` key (any of those layers
overrides the entry, as the counterexample shows); and after the
set-once deferred `set_url` assignment used for collection items the
`url` entry equals the assigned URL unconditionally. -/
theorem view_context_spec (url template : Option String)
    (collection : Option CollInfo) (default_context : Option (List (String × Val)))
    (frontmatter : List (String × Val)) (content basename : String) :
    ((lookupKey (template_view_context url template collection default_context)
        "template").isSome = true)
    ∧ (match markdown_view_context frontmatter content basename url template
          collection default_context with
       | .ok ctx => (lookupKey ctx "template").isSome = true
       | .error _ => True)
    ∧ ((match collection with
         | some c => lookupKey c.context "url" = none
         | none => True) →
       (match default_context with
         | some dc => lookupKey dc "url" = none
         | none => True) →
       lookupKey (template_view_context url template collection default_context)
           "url" = some (optUrlVal url)
       ∧ (lookupKey frontmatter "url" = none →
          match markdown_view_context frontmatter content basename url template
              collection default_context with
          | .ok ctx => lookupKey ctx "url" = some (optUrlVal url)
          | .error _ => True))
    ∧ (∀ ctx u2, lookupKey (set_url ctx u2) "url" = some (.vStr u2)) := by
  have htmpl : (lookupKey (template_view_context url template collection
      default_context) "template").isSome = true := by
    rw [template_view_context.eq_def]
    rcases collection with _ | c <;> rcases default_context with _ | dc <;>
      rcases template with _ | t <;> simp only [] <;> try split_ifs
    all_goals first
      | (rw [lookupKey_dictSet_self]; rfl)
      | ((repeat' apply lookupKey_dictUpdate_isSome) <;> rfl)
  refine ⟨htmpl, ?_, fun hc hd => ?_, fun ctx u2 => lookupKey_dictSet_self ctx "url" _⟩
  · rw [markdown_view_context]
    cases hinfo : extract_info_from_filename basename with
    | error e => simp only [hinfo]
    | ok info =>
      simp only [hinfo]
      exact lookupKey_dictUpdate_isSome _ _ _ (lookupKey_dictUpdate_isSome _ _ _
        (lookupKey_dictSet_isSome _ _ _ _ (lookupKey_dictSet_isSome _ _ _ _ htmpl)))
  · have hurl : lookupKey (template_view_context url template collection
        default_context) "url" = some (optUrlVal url) := by
      rw [template_view_context.eq_def]
      rcases collection with _ | c <;> rcases default_context with _ | dc <;>
        rcases template with _ | t <;> simp only [] <;> try split_ifs
      all_goals
        (repeat' first
          | rw [lookupKey_dictSet_other _ _ _ _ (by decide)]
          | rw [lookupKey_dictUpdate_of_absent _ _ _ (by first | exact hc | exact hd)])
      all_goals rfl
    refine ⟨hurl, fun hfm => ?_⟩
    rw [markdown_view_context]
    cases hinfo : extract_info_from_filename basename with
    | error e => simp only [hinfo]
    | ok info =>
      simp only [hinfo]
      rw [lookupKey_dictUpdate_of_absent _ _ _ hfm,
        lookupKey_dictUpdate_of_absent _ _ _ (extract_info_no_url _ _ hinfo),
        lookupKey_dictSet_other _ _ _ _ (by decide),
        lookupKey_dictSet_other _ _ _ _ (by decide), hurl]

theorem view_context_spec_witness :
    match markdown_view_context [] "c" "page.md" (some "/p/") none none none with
    | .ok ctx => lookupKey ctx "url" = some (optUrlVal (some "/p/"))
    | .error _ => True :=
  (((view_context_spec (some "/p/") none none none [] "c" "page.md").2.2.1
    trivial trivial).2 rfl)

/-- C2 counterexample: a Markdown view whose URL is fixed at construction
(here `/page/`, as the catch-all Markdown generator does) but whose front
matter carries its own `url` key ends up with a context `url` entry equal
to the front-matter value, not the View's final URL. -/
theorem view_context_url_override_counterexample :
    (markdown_view_context [("url", .vStr "/other/")] "body" "page.md"
        (some "/page/") none none none).map (fun ctx => lookupKey ctx "url")
      = .ok (some (.vStr "/other/"))
    ∧ some (Val.vStr "/other/") ≠ some (Val.vStr "/page/") :=
  ⟨rfl, by simp⟩

/-! ## generators.py: collection item ordering (C6) -/

/-- Python `str(value)` for the values that occur as sort keys (scalars
and dates; `str()` of containers and live objects is not rendered
faithfully here, no modeled claim depends on it). -/
def pyStr : Val → String
  | .vNone => "None"
  | .vBool b => if b then "True" else "False"
  | .vInt n => toString n
  | .vStr s => s
  | .vDate y mo d =>
    let pad := fun (n w : Nat) =>
      let s := toString n
      String.mk (List.replicate (w - s.length) '0') ++ s
    pad y 4 ++ "-" ++ pad mo 2 ++ "-" ++ pad d 2
  | .vList _ => "[...]"
  | .vDict _ => "\x7b...\x7d"
  | .vSelfRef => "<View>"
  | .vAppRef => "<App>"
  | .vCollectionsRef => "<Collections>"
  | .vCollectionRef n => "<Collection " ++ n ++ ">"
  | .vContextRef => "\x7b...\x7d"

/-- Python `str.lower()` (ASCII case folding; the Unicode special cases
do not arise in the modeled inputs). -/
def pyLower (s : String) : String := String.mk (s.data.map Char.toLower)

/-- Model of `sortfunc` (generators.py lines 106-108):
`str(item.context.get(self.item_order, "")).lower()`. -/
def sort_key (order : String) (ctx : List (String × Val)) : String :=
  pyLower (pyStr ((lookupKey ctx order).getD (.vStr "")))

/-- One insertion step of a stable ascending sort: keep walking past
strictly smaller keys, insert before the first element whose key is not
smaller (so an earlier element precedes later elements of equal key). -/
def insertSorted {α : Type} (key : α → String) (x : α) : List α → List α
  | [] => [x]
  | y :: ys => if key y < key x then y :: insertSorted key x ys else x :: y :: ys

/-- Python's `sorted(items, key=sortfunc)`: a stable ascending sort. -/
def sortByKey {α : Type} (key : α → String) : List α → List α
  | [] => []
  | x :: xs => insertSorted key x (sortByKey key xs)

/-- The sort step of `Collection.__call__` (generators.py lines 104-109):
only run when `self.item_order` is truthy. -/
def collection_sort (item_order : Option String)
    (items : List (List (String × Val))) : List (List (String × Val)) :=
  match item_order with
  | some k => if k = "" then items else sortByKey (sort_key k) items
  | none => items

theorem insertSorted_perm {α : Type} (key : α → String) (x : α) (l : List α) :
    (insertSorted key x l).Perm (x :: l) := by
  induction l with
  | nil => exact List.Perm.refl _
  | cons y ys ih =>
    rw [insertSorted]
    split
    · exact (ih.cons y).trans (List.Perm.swap x y ys)
    · exact List.Perm.refl _

theorem sortByKey_perm {α : Type} (key : α → String) (l : List α) :
    (sortByKey key l).Perm l := by
  induction l with
  | nil => exact List.Perm.refl _
  | cons x xs ih =>
    exact (insertSorted_perm key x (sortByKey key xs)).trans (ih.cons x)

theorem insertSorted_pairwise {α : Type} (key : α → String) (x : α) (l : List α)
    (h : List.Pairwise (fun a b => key a ≤ key b) l) :
    List.Pairwise (fun a b => key a ≤ key b) (insertSorted key x l) := by
  induction l with
  | nil => simp [insertSorted]
  | cons y ys ih =>
    rw [List.pairwise_cons] at h
    rw [insertSorted]
    split
    · rename_i hlt
      refine List.Pairwise.cons (fun b hb => ?_) (ih h.2)
      rcases List.mem_cons.mp (((insertSorted_perm key x ys).mem_iff).mp hb)
        with hbx | hby
      · exact hbx ▸ le_of_lt hlt
      · exact h.1 b hby
    · rename_i hnlt
      refine List.Pairwise.cons (fun b hb => ?_) (List.pairwise_cons.mpr h)
      rcases List.mem_cons.mp hb with hby | hby
      · exact hby ▸ le_of_not_lt hnlt
      · exact le_trans (le_of_not_lt hnlt) (h.1 b hby)

theorem insertSorted_filter_eq {α : Type} (key : α → String) (x : α) (l : List α)
    (s : String) (hx : key x = s) :
    (insertSorted key x l).filter (fun a => decide (key a = s))
      = x :: l.filter (fun a => decide (key a = s)) := by
  induction l with
  | nil => simp [insertSorted, List.filter, hx]
  | cons y ys ih =>
    rw [insertSorted]
    split
    · rename_i hlt
      have hy : ¬ (key y = s) := fun hh => absurd (hx ▸ hh ▸ hlt) (lt_irrefl _)
      simp only [List.filter_cons, decide_eq_true_eq]
      rw [if_neg (by simpa using hy)] at *
      simpa [List.filter_cons, hy] using ih
    · simp [List.filter_cons, hx]

theorem insertSorted_filter_ne {α : Type} (key : α → String) (x : α) (l : List α)
    (s : String) (hx : key x ≠ s) :
    (insertSorted key x l).filter (fun a => decide (key a = s))
      = l.filter (fun a => decide (key a = s)) := by
  induction l with
  | nil => simp [insertSorted, List.filter, hx]
  | cons y ys ih =>
    rw [insertSorted]
    split
    · simp only [List.filter_cons]
      rw [ih]
    · simp [List.filter_cons, hx]

theorem sortByKey_pairwise {α : Type} (key : α → String) (l : List α) :
    List.Pairwise (fun a b => key a ≤ key b) (sortByKey key l) := by
  induction l with
  | nil => exact List.Pairwise.nil
  | cons x xs ih => exact insertSorted_pairwise _ _ _ ih

theorem sortByKey_filter {α : Type} (key : α → String) (l : List α) (s : String) :
    (sortByKey key l).filter (fun a => decide (key a = s))
      = l.filter (fun a => decide (key a = s)) := by
  induction l with
  | nil => rfl
  | cons x xs ih =>
    rw [sortByKey]
    by_cases hx : key x = s
    · rw [insertSorted_filter_eq key x _ s hx, ih]
      simp [List.filter_cons, hx]
    · rw [insertSorted_filter_ne key x _ s hx, ih]
      simp [List.filter_cons, hx]

/-- C6: with `order` set to a non-empty key name `k`, the post-resolution
items list is a permutation of the discovered items, sorted (ascending,
by the lowercased string rendering of the item's context value at `k`,
missing keys reading as the empty string), and the sort is stable: for
every sort-key value the items carrying it keep their discovery order. -/
theorem collection_sort_spec (k : String) (hk : k ≠ "")
    (items : List (List (String × Val))) :
    (collection_sort (some k) items).Perm items
    ∧ List.Pairwise (fun a b => sort_key k a ≤ sort_key k b)
        (collection_sort (some k) items)
    ∧ ∀ s, (collection_sort (some k) items).filter (fun a => decide (sort_key k a = s))
        = items.filter (fun a => decide (sort_key k a = s)) := by
  have hrw : collection_sort (some k) items = sortByKey (sort_key k) items := by
    rw [collection_sort, if_neg hk]
  rw [hrw]
  exact ⟨sortByKey_perm _ _, sortByKey_pairwise _ _, fun s => sortByKey_filter _ _ _⟩

theorem collection_sort_spec_witness :
    (collection_sort (some "title")
        [[("title", Val.vStr "CCC")], [("title", Val.vStr "BBB")]]).Perm
      [[("title", Val.vStr "CCC")], [("title", Val.vStr "BBB")]]
    ∧ List.Pairwise (fun a b => sort_key "title" a ≤ sort_key "title" b)
        (collection_sort (some "title")
          [[("title", Val.vStr "CCC")], [("title", Val.vStr "BBB")]])
    ∧ ∀ s, (collection_sort (some "title")
          [[("title", Val.vStr "CCC")], [("title", Val.vStr "BBB")]]).filter
            (fun a => decide (sort_key "title" a = s))
        = [[("title", Val.vStr "CCC")], [("title", Val.vStr "BBB")]].filter
            (fun a => decide (sort_key "title" a = s)) :=
  collection_sort_spec "title" (by decide)
    [[("title", Val.vStr "CCC")], [("title", Val.vStr "BBB")]]

/-! ## generators.py: `Collection.register_page` (C7) -/

/-- The two kinds of view a declared page can produce. -/
inductive ViewTag where
  | markdownView (path : String)
  | templateView

/-- Model of `Collection.register_page` (generators.py lines 165-209).  The
filesystem probe for the conventional markdown file is the parameter
`mdExists`; reading that file's front matter (inside the `MarkdownView`
constructor) is abstracted to the parameter `readFm`.  Note the title
validation: `None` and non-strings are rejected with `ConfigError`, but
an empty string reaches `title[0]`, which raises an uncaught
`IndexError`. -/
def register_page (yaml_path collUrl content_dir : String) (mdExists : Bool)
    (readFm : Except PyExc Unit) (url_map : List (String × ViewTag))
    (page : Val) : Except PyExc (List (String × ViewTag)) :=
  match page with
  | .vDict m =>
    let p1 := popKey m "title"
    let p2 := popKey p1.2 "template"
    let p3 := popKey p2.2 "context"
    let context := p3.1.getD (.vDict [])
    match p1.1.getD .vNone with
    | .vNone =>
      .error (.configError (some yaml_path) "Collection pages must have a title")
    | .vStr t =>
      if ¬ p3.2.isEmpty then
        .error (.configError (some yaml_path) "Unexpected fields in collection page")
      else
        match t.data with
        | [] => .error .indexError
        | c :: _ =>
          if c = '/' then
            .error (.configError (some yaml_path)
              "Collection page names cannot start with a slash")
          else
            let url := normalize_url (collUrl ++ t)
            let md_path :=
              content_dir ++ String.mk (collUrl.data.drop 1) ++ t ++ ".md"
            let mkView : Except PyExc ViewTag :=
              if mdExists then
                match readFm with
                | .error e => .error e
                | .ok _ => .ok (.markdownView md_path)
              else
                match context with
                | .vDict _ => .ok .templateView
                | _ => .error .attributeError
            match mkView with
            | .error e => .error e
            | .ok view =>
              match add_url url_map url view with
              | .ok m2 => .ok m2
              | .error _ =>
                .error (.configError (some yaml_path)
                  "Page title conflicts with an existing url")
    | _ =>
      .error (.configError (some yaml_path)
        "Page title must be a non-zero length string")
  | _ => .error (.configError (some yaml_path) "Expected dict describing page")

/-- C7 (code bug): a declared page whose `title` is the empty string
passes both title checks (`title is None`, `isinstance(title, str)`) and
crashes with an uncaught `IndexError` at `title[0]`, although the code's
own error message promises a `ConfigError` for titles that are not
non-zero-length strings. -/
theorem register_page_empty_title_index_error :
    register_page "/c/blog/_collection.yaml" "/blog/" "/c/" false (.ok ())
      [] (.vDict [("title", .vStr "")]) = .error .indexError := rfl

/-! ## app.py: `get_build_path` / `get_content_path` (C10) -/

/-- Python `s.startswith(pre)`, character-level. -/
def pyStartsWith (s pre : String) : Bool := pre.data.isPrefixOf s.data

/-- Python `s.endswith(suf)`, character-level. -/
def pyEndsWith (s suf : String) : Bool := suf.data.isSuffixOf s.data

/-- Model of `posixpath.join` for the two-argument calls made by the app. -/
def pjoin (a b : String) : String :=
  if pyStartsWith b "/" then b
  else if a = "" ∨ pyEndsWith a "/" then a ++ b
  else a ++ "/" ++ b

/-- Python `p.split('/')`. -/
def splitSlashAux : List Char → List Char → List String
  | [], cur => [String.mk cur.reverse]
  | c :: rest, cur =>
    if c = '/' then String.mk cur.reverse :: splitSlashAux rest []
    else splitSlashAux rest (c :: cur)

def splitSlash (p : String) : List String := splitSlashAux p.data []

/-- One step of `posixpath.normpath`'s component scan. -/
def normpathStep (initialSlashes : Nat) (acc : List String) (comp : String) :
    List String :=
  if comp = "" ∨ comp = "." then acc
  else if comp ≠ ".." ∨ (initialSlashes = 0 ∧ acc = [])
      ∨ (acc ≠ [] ∧ acc.getLast? = some "..") then acc ++ [comp]
  else if acc ≠ [] then acc.dropLast
  else acc

/-- Model of `posixpath.normpath`. -/
def normpath (p : String) : String :=
  if p = "" then "."
  else
    let initialSlashes : Nat :=
      if pyStartsWith p "/" then
        if pyStartsWith p "//" ∧ ¬ pyStartsWith p "///" then 2 else 1
      else 0
    let newComps := (splitSlash p).foldl (normpathStep initialSlashes) []
    let path := String.mk (List.replicate initialSlashes '/')
      ++ String.intercalate "/" newComps
    if path = "" then "." else path

/-- Model of `App.get_build_path` (app.py lines 118-123): `os.path.abspath`
reduces to `normpath` because `self.build_dir` is an absolute path, so
the joined path is already absolute.  The containment check is a plain
string-prefix test (`str.startswith`) plus an `isabs` test on the
argument. -/
def get_build_path (build_dir path : String) : Except PyExc String :=
  let absolute := normpath (pjoin build_dir path)
  if pyStartsWith path "/" ∨ ¬ pyStartsWith absolute build_dir then
    .error (.valueError "Tried to get path outside of build directory")
  else .ok absolute

/-- Model of `App.get_content_path` (app.py lines 125-130): same prefix test, but
no `isabs` rejection of the argument. -/
def get_content_path (content_dir path : String) : Except PyExc String :=
  let absolute := normpath (pjoin content_dir path)
  if ¬ pyStartsWith absolute content_dir then
    .error (.valueError "Tried to get path outside of content directory")
  else .ok absolute

/-- Modelled from the spec: a normalized path lies inside a directory iff
it is the directory itself or extends it across a `/` boundary. -/
def insideDir (dir p : String) : Bool :=
  p == dir || pyStartsWith p (dir ++ "/")

/-- C10 counterexample: with build directory `/r/build`, the relative
argument `../build2/f` resolves to `/r/build2/f`, which lies outside the
build directory, yet `get_build_path` accepts it because the sibling
directory shares the string prefix `/r/build`. -/
theorem get_build_path_escape_counterexample :
    get_build_path "/r/build" "../build2/f" = .ok "/r/build2/f"
    ∧ insideDir "/r/build" "/r/build2/f" = false :=
  ⟨rfl, rfl⟩

/-- C10 (amended): `get_build_path` raises `ValueError` exactly for
absolute arguments and for arguments whose normalized join lacks the
build directory as a string prefix; `get_content_path` does the same for
the content directory but accepts absolute arguments; consequently a
returned path is only guaranteed to carry the directory as a string
prefix — it can still denote a location outside the directory when a
sibling directory shares that prefix. -/
theorem get_build_path_spec (build_dir content_dir p : String)
    (hbd : pyStartsWith build_dir "/" = true)
    (hcd : pyStartsWith content_dir "/" = true) :
    ((∃ msg, get_build_path build_dir p = .error (.valueError msg)) ↔
      (pyStartsWith p "/" = true
        ∨ pyStartsWith (normpath (pjoin build_dir p)) build_dir = false))
    ∧ (∀ r, get_build_path build_dir p = .ok r →
        r = normpath (pjoin build_dir p) ∧ pyStartsWith r build_dir = true)
    ∧ ((∃ msg, get_content_path content_dir p = .error (.valueError msg)) ↔
      pyStartsWith (normpath (pjoin content_dir p)) content_dir = false)
    ∧ (∀ r, get_content_path content_dir p = .ok r →
        r = normpath (pjoin content_dir p)
        ∧ pyStartsWith r content_dir = true) := by
  rw [get_build_path, get_content_path]
  constructor
  · split
    · rename_i hcond
      constructor
      · intro _
        rcases hcond with h | h
        · exact Or.inl h
        · exact Or.inr (by simpa using h)
      · intro _
        exact ⟨_, rfl⟩
    · rename_i hcond
      rw [not_or] at hcond
      constructor
      · rintro ⟨msg, hmsg⟩
        cases hmsg
      · intro h
        rcases h with h | h
        · exact absurd h hcond.1
        · exact absurd (by simpa using h) hcond.2
  constructor
  · split
    · intro r hr
      cases hr
    · rename_i hcond
      rw [not_or] at hcond
      intro r hr
      rw [Except.ok.injEq] at hr
      subst hr
      exact ⟨rfl, by simpa using hcond.2⟩
  constructor
  · split
    · rename_i hcond
      exact ⟨fun _ => by simpa using hcond, fun _ => ⟨_, rfl⟩⟩
    · rename_i hcond
      constructor
      · rintro ⟨msg, hmsg⟩
        cases hmsg
      · intro h
        exact absurd (by simpa using h) hcond
  · split
    · intro r hr
      cases hr
    · rename_i hcond
      intro r hr
      rw [Except.ok.injEq] at hr
      subst hr
      exact ⟨rfl, by simpa using hcond⟩

theorem get_build_path_spec_witness :
    pyStartsWith "/r/build" "/" = true
    ∧ pyStartsWith "/r/content" "/" = true
    ∧ (∀ r, get_build_path "/r/build" "x/y.html" = .ok r →
        r = normpath (pjoin "/r/build" "x/y.html")
        ∧ pyStartsWith r "/r/build" = true) :=
  ⟨by decide, by decide,
    (get_build_path_spec "/r/build" "/r/content" "x/y.html"
      (by decide) (by decide)).2.1⟩

end ClearIce
